import Mathlib

/-!
Verification of the fnos-git-auth core against its natural-language
specification.  The Python modules `src/crypto.py`, `src/ws_client.py`,
`src/config.py` and `src/auth.py` are shallowly embedded below: pure
functions become Lean functions, machine-level byte strings become
`List Nat` with explicit `< 256` bounds, Python `None`/falsy values are
modelled with `Option` plus explicit truthiness functions, and raising
code returns `Except`.
-/

namespace FnosGitAuth

/-! ## Python primitives shared by several modules -/

/-- Truthiness of a Python `Optional[str]`: `None` and `""` are falsy. -/
def pyTruthyOptStr : Option String → Bool
  | none => false
  | some s => s ≠ ""

/-- Python `a or b` on two `Optional[str]` values: returns `b` whenever `a`
is falsy (`None` or the empty string). -/
def pyOrStr : Option String → Option String → Option String
  | none, b => b
  | some s, b => if s = "" then b else some s

/-! ## Hexadecimal formatting (Python `format(n, "x")` and `str.zfill`)

Used by `ReqIdGenerator.generate` in `src/ws_client.py`. -/

/-- Lowercase hexadecimal digit characters, as produced by Python `format(n, "x")`. -/
def hexDigitCharOf (n : Nat) : Char :=
  "0123456789abcdef".toList.getD n '0'

/-- Numeric value of one lowercase hexadecimal digit (`16` for non-digits). -/
def hexDigitValOf (c : Char) : Nat :=
  List.indexOf c "0123456789abcdef".toList

/-- Little-endian hexadecimal digits, driven by a fuel argument so that the
recursion is structural (the fuel never runs out when it starts at `n`). -/
def toHexRevAux : Nat → Nat → List Char
  | _, 0 => []
  | 0, _ + 1 => []
  | fuel + 1, n + 1 => hexDigitCharOf ((n + 1) % 16) :: toHexRevAux fuel ((n + 1) / 16)

/-- Little-endian hexadecimal digits of `n` (empty for `0`). -/
def toHexRev (n : Nat) : List Char := toHexRevAux n n

/-- Python `format(n, "x")`: lowercase hexadecimal, `"0"` for zero. -/
def pyHexChars (n : Nat) : List Char :=
  if n = 0 then ['0'] else (toHexRev n).reverse

/-- Python `str.zfill(w)`: pad on the left with `'0'` up to width `w`. -/
def zfillChars (w : Nat) (s : List Char) : List Char :=
  List.replicate (w - s.length) '0' ++ s

/-- Value of a little-endian hexadecimal digit list. -/
def fromHexRev : List Char → Nat
  | [] => 0
  | d :: rest => hexDigitValOf d + 16 * fromHexRev rest

/-- Value of a big-endian hexadecimal digit string (inverse of formatting). -/
def fromHexChars (s : List Char) : Nat :=
  fromHexRev s.reverse

/-! ## `ReqIdGenerator` (`src/ws_client.py`, lines 23-37)

The generator's only state is the `_index` counter.  In the source,
`_reqid_generator = ReqIdGenerator()` is a module-level singleton shared by
every `FnOsClient` instance and hence by every connection of the process. -/

/-- The request id produced for timestamp `ts`, back id `back` and counter
value `i`: `format(ts, "x").zfill(8) + back + format(i, "x").zfill(4)`. -/
def mkReqId (ts : Nat) (back : List Char) (i : Nat) : String :=
  String.mk (zfillChars 8 (pyHexChars ts) ++ back ++ zfillChars 4 (pyHexChars i))

/-- `ReqIdGenerator.generate`: increments `_index`, then builds the id from
the current unix timestamp, the supplied `back_id` and the new counter.
The state is the `_index` field. -/
def generate (index : Nat) (ts : Nat) (back : List Char) : Nat × String :=
  (index + 1, mkReqId ts back (index + 1))

/-- Running the (module-level, shared) generator over a whole sequence of
requests; each request supplies the timestamp observed at generation time
and the issuing client's `back_id`. -/
def genRun (index : Nat) : List (Nat × List Char) → Nat × List String
  | [] => (index, [])
  | (ts, back) :: rest =>
      let step := generate index ts back
      let tail := genRun step.1 rest
      (tail.1, step.2 :: tail.2)

/-- The default `back_id` string used before login (`"0000000000000000"`). -/
def defaultBackId : List Char := "0000000000000000".toList

/-! ## JSON values (Python objects travelling over the wire) -/

inductive Json where
  | null
  | bool (b : Bool)
  | num (n : Int)
  | str (s : String)
  | arr (elems : List Json)
  | obj (fields : List (String × Json))

/-- Python truthiness of a JSON value. -/
def truthyJson : Json → Bool
  | .null => false
  | .bool b => b
  | .num n => n ≠ 0
  | .str s => s ≠ ""
  | .arr es => !es.isEmpty
  | .obj fs => !fs.isEmpty

def truthyOptJson : Option Json → Bool
  | none => false
  | some j => truthyJson j

/-- Python `dict.get` on a JSON object, modelled as an insertion-ordered
association list (Python dicts have unique keys, so the first match is the
binding). -/
def dictGet (fields : List (String × Json)) (k : String) : Option Json :=
  (fields.find? (fun p => p.1 == k)).map (fun p => p.2)

/-- Python exception values raised by the embedded code.  `valueError` is
what the AES library's `unpad`/`b64decode` raise on bad padding or malformed
key material (the spec's `CryptoError`); `connectionClosedError` is the
spec's `ConnectionClosedError` vocabulary (§5, §7), which no code path in
the source ever constructs. -/
inductive PyErr where
  | runtimeError (msg : String)
  | timeoutError (msg : String)
  | connectionError (msg : String)
  | valueError (msg : String)
  | connectionClosedError (msg : String)
deriving DecidableEq

/-! ## `FnOsClient` pending-request table (`src/ws_client.py`)

`_pending : dict[str, asyncio.Future]` maps request ids to result futures.
Futures are modelled as slots in an append-only list (`futures`); the
pending dict stores the slot index.  A slot is `waiting` until it is
resolved with response data; `failed` exists so that failure-resolution
claims can be stated, though no code path produces it. -/

inductive Slot where
  | waiting
  | resolved (data : List (String × Json))
  | failed (e : PyErr)

structure ClientState where
  wsOpen : Bool
  listenActive : Bool
  pending : List (String × Nat)
  futures : List Slot

/-- Python `dict` lookup on the pending table. -/
def pendingLookup (k : String) (d : List (String × Nat)) : Option Nat :=
  (d.find? (fun p => p.1 == k)).map (fun p => p.2)

/-- Python `self._pending[reqid] = future`. -/
def pendingSet (k : String) (v : Nat) (d : List (String × Nat)) : List (String × Nat) :=
  if d.any (fun p => p.1 == k) then d.map (fun p => if p.1 == k then (k, v) else p)
  else d ++ [(k, v)]

/-- Python `self._pending.pop(reqid, None)` (keys are unique in a dict). -/
def pendingRemove (k : String) (d : List (String × Nat)) : List (String × Nat) :=
  d.filter (fun p => !(p.1 == k))

/-- `FnOsClient.request`, lines 198-199: create a fresh future and register
it in the pending table under the generated request id. -/
def sendStep (s : ClientState) (rid : String) : ClientState :=
  { s with pending := pendingSet rid s.futures.length s.pending,
           futures := s.futures ++ [Slot.waiting] }

/-- One iteration of the receive loop `FnOsClient._listen` (lines 150-161)
on an inbound frame; `none` models a frame whose JSON decoding failed
(logged and dropped).  A frame with a truthy `reqid` found in the pending
table pops that entry and resolves its future if it is not yet done;
anything else leaves the state unchanged. -/
def recvStep (s : ClientState) (msg : Option (List (String × Json))) : ClientState :=
  match msg with
  | none => s
  | some data =>
    match dictGet data "reqid" with
    | none => s
    | some rid =>
      if truthyJson rid then
        match rid with
        | .str rs =>
          match pendingLookup rs s.pending with
          | some idx =>
              { s with pending := pendingRemove rs s.pending,
                       futures :=
                         match s.futures[idx]? with
                         | some .waiting => s.futures.set idx (.resolved data)
                         | _ => s.futures }
          | none => s
        | _ => s
      else s

/-- `FnOsClient.request`, lines 204-206: on `asyncio.TimeoutError` the
caller removes its own pending entry (and then raises `TimeoutError`). -/
def timeoutStep (s : ClientState) (rid : String) : ClientState :=
  { s with pending := pendingRemove rid s.pending }

/-- `FnOsClient.close` (lines 131-144): cancels the listen task and closes
the socket.  The pending table and the request futures are not touched. -/
def closeStep (s : ClientState) : ClientState :=
  { s with listenActive := false, wsOpen := false }

/-- `FnOsClient._listen`, lines 162-163: on `websockets.ConnectionClosed`
the loop logs and exits.  The pending table and the futures are not
touched. -/
def remoteClosedStep (s : ClientState) : ClientState :=
  { s with listenActive := false }

/-- A sample connection state: one pending request `"r1"` whose future is
slot 0 and still waiting. -/
def sampleClientState : ClientState :=
  { wsOpen := true, listenActive := true,
    pending := [("r1", 0)], futures := [Slot.waiting] }

/-- A sample inbound response frame for request id `"r1"`. -/
def sampleResponse : List (String × Json) :=
  [("reqid", Json.str "r1"), ("result", Json.num 0)]

/-! ## Config store (`src/config.py`)

The per-server record persisted in `config.json`.  All fields are Python
`Optional[str]` (absent keys read as `None`).  `datetime.fromisoformat` is
Python standard-library code; it is modelled as an abstract parse function
from strings to an integer timeline, `none` standing for the
`ValueError`/`TypeError` it raises on unparsable input. -/

structure ServerConfig where
  url : Option String := none
  username : Option String := none
  fnos_token : Option String := none
  long_token : Option String := none
  entry_token : Option String := none
  sign_key : Option String := none
  fnos_token_expires_at : Option String := none
  long_token_expires_at : Option String := none
  entry_token_expires_at : Option String := none
  expires_at : Option String := none

/-- `_check_expires_at` (`src/config.py`, lines 131-144): `True` (expired)
for `None`/empty/unparsable values, otherwise `datetime.now() > expires_at`. -/
def _check_expires_at (parse : String → Option Int) (now : Int) :
    Option String → Bool
  | none => true
  | some s =>
    if s = "" then true
    else
      match parse s with
      | none => true
      | some expiry => decide (now > expiry)

/-- `is_entry_token_expired` (lines 147-154): missing config is expired;
otherwise checks `entry_token_expires_at or expires_at`. -/
def is_entry_token_expired (parse : String → Option Int) (now : Int) :
    Option ServerConfig → Bool
  | none => true
  | some c => _check_expires_at parse now (pyOrStr c.entry_token_expires_at c.expires_at)

/-- `is_fnos_token_expired` (lines 157-166). -/
def is_fnos_token_expired (parse : String → Option Int) (now : Int) :
    Option ServerConfig → Bool
  | none => true
  | some c => _check_expires_at parse now (pyOrStr c.fnos_token_expires_at c.expires_at)

/-- `is_long_token_expired` (lines 169-174). -/
def is_long_token_expired (parse : String → Option Int) (now : Int) :
    Option ServerConfig → Bool
  | none => true
  | some c => _check_expires_at parse now c.long_token_expires_at

/-- `token_needs_refresh` (lines 186-208): `False` on missing config,
missing or unparsable expiry; otherwise `now > expires_at - threshold`. -/
def token_needs_refresh (parse : String → Option Int) (now threshold : Int) :
    Option ServerConfig → Bool
  | none => false
  | some c =>
    match pyOrStr c.entry_token_expires_at c.expires_at with
    | none => false
    | some s =>
      if s = "" then false
      else
        match parse s with
        | none => false
        | some expiry => decide (now > expiry - threshold)

/-- The timestamp a stored expiry value effectively denotes: `none` when the
value is absent, empty or unparsable. -/
def effTs (parse : String → Option Int) : Option String → Option Int
  | none => none
  | some s => if s = "" then none else parse s

/-- A concrete model of `datetime.fromisoformat` recognising one timestamp
string, mapped to instant `0`. -/
def parse0 (s : String) : Option Int :=
  if s = "2024-01-01T00:00:00" then some 0 else none

/-! ## Entry-token exchange (`src/ws_client.py` lines 313-323 and
`src/auth.py` lines 410-427) -/

/-- `FnOsClient.exchange_entry_token`: raises (`RuntimeError`) when the
response carries an `errno` key, otherwise returns the response. -/
def exchange_entry_token (resp : List (String × Json)) :
    Except PyErr (List (String × Json)) :=
  if (dictGet resp "errno").isSome then .error (.runtimeError "获取 entry-token 失败")
  else .ok resp

/-- The `data.token` field of an entry-token response:
`entry_response.get("data", {})` followed by `.get("token")` when that
data value is a dict. -/
def tokenFieldOf (resp : List (String × Json)) : Option Json :=
  match (dictGet resp "data").getD (Json.obj []) with
  | .obj fields => dictGet fields "token"
  | _ => none

/-- `_get_entry_token` (`src/auth.py`): calls `exchange_entry_token`,
returns `entry_data["token"]` when the token field is present and truthy,
otherwise raises `RuntimeError`. -/
def _get_entry_token (resp : List (String × Json)) : Except PyErr Json :=
  match exchange_entry_token resp with
  | .error e => .error e
  | .ok r =>
    match tokenFieldOf r with
    | some t =>
        if truthyJson t then .ok t
        else .error (.runtimeError "刷新失败: 未能获取 entry-token")
    | none => .error (.runtimeError "刷新失败: 未能获取 entry-token")

/-- A successful entry-token response. -/
def sampleEntryOk : List (String × Json) :=
  [("data", Json.obj [("token", Json.str "0123abcd")])]

/-- An entry-token response with no token field. -/
def sampleEntryNoToken : List (String × Json) :=
  [("data", Json.obj [("result", Json.num 1)])]

/-! ## `do_login` entry-token fallback (`src/auth.py`, lines 57-111) -/

/-- The entry token extracted inside `do_login`: `None` when
`exchange_entry_token` raised, otherwise `data.token` when the data field
is a dict. -/
def extractEntryToken (entryResult : Except PyErr (List (String × Json))) : Option Json :=
  match entryResult with
  | .error _ => none
  | .ok resp => tokenFieldOf resp

/-- The slice of the record `do_login` persists through
`save_server_config`, together with the `entry_token_warning` flag that
drives the degraded-mode warning. -/
structure LoginSaved where
  username : String
  fnos_token : String
  long_token : Option Json
  entry_token : Option Json
  entry_token_warning : Bool

/-- `do_login`, lines 57-111: extract the entry token from the (possibly
failed) exchange; when it is falsy fall back to the raw session token and
set the warning flag; raise if login returned no token; persist. -/
def do_login_persist (username : String) (fnos_token : Option String)
    (long_token : Option Json) (entryResult : Except PyErr (List (String × Json))) :
    Except PyErr LoginSaved :=
  let e0 := extractEntryToken entryResult
  let entryAndWarn :=
    if truthyOptJson e0 = false then (fnos_token.map Json.str, true) else (e0, false)
  if pyTruthyOptStr fnos_token = false then
    .error (.runtimeError "登录失败: 服务器未返回 token")
  else
    .ok { username := username, fnos_token := fnos_token.getD "",
          long_token := long_token, entry_token := entryAndWarn.1,
          entry_token_warning := entryAndWarn.2 }

/-! ## Refresh cascade (`src/auth.py`, lines 209-264) -/

/-- Saved credentials returned by `get_credentials()`. -/
structure Creds where
  username : String
  password : String

/-- `do_refresh`: the three strategy bodies perform network and crypto
I/O, so their outcomes are passed as `Except` parameters — `r1` for
`_refresh_with_fnos_token`, `r2` for `_refresh_with_long_token` (whose
`token_login` call runs `aes_decrypt` on the server secret and can raise a
padding `ValueError`), `r3` for the `do_login` re-login.  Returns the
number of the strategy that succeeded, or the propagated error.  Strategy
levels 1 and 2 are wrapped in `except Exception` in the source, so any
error there falls through to the next level. -/
def do_refresh (parse : String → Option Int) (now : Int)
    (cfg : Option ServerConfig) (r1 r2 : Except PyErr Unit)
    (creds : Option Creds) (r3 : Except PyErr Unit) : Except PyErr Nat :=
  match cfg with
  | none => .error (.runtimeError "当前未登录")
  | some c =>
    if !pyTruthyOptStr c.url then .error (.runtimeError "当前未登录")
    else if !pyTruthyOptStr c.fnos_token && !pyTruthyOptStr c.long_token then
      .error (.runtimeError "当前未登录")
    else
      match
        (if pyTruthyOptStr c.fnos_token && pyTruthyOptStr c.sign_key &&
            !is_fnos_token_expired parse now (some c) then
          match r1 with
          | .ok _ => some (Except.ok 1)
          | .error _ => none
        else none : Option (Except PyErr Nat))
      with
      | some res => res
      | none =>
        match
          (if pyTruthyOptStr c.long_token && !is_long_token_expired parse now (some c) then
            match r2 with
            | .ok _ => some (Except.ok 2)
            | .error _ => none
          else none : Option (Except PyErr Nat))
        with
        | some res => res
        | none =>
          match creds with
          | some cr =>
            if cr.username != "" && cr.password != "" then
              match r3 with
              | .ok _ => .ok 3
              | .error e => .error e
            else .error (.runtimeError "Token 已失效且未保存凭据，请重新登录")
          | none => .error (.runtimeError "Token 已失效且未保存凭据，请重新登录")

/-- A config holding only a still-valid long token. -/
def cfgLongOnly : ServerConfig :=
  { url := some "nas.example", long_token := some "L",
    long_token_expires_at := some "2024-01-01T00:00:00" }

/-! ## Base64 (Python `base64.b64encode` / `b64decode`)

Bytes are `Nat`s below 256.  `b64decode` on well-padded input ignores the
`'='` padding characters; we model it as filtering to alphabet characters
and regrouping 6-bit values. -/

def B64_CHARS : List Char :=
  "ABCDEFGHIJKLMNOPQRSTUVWXYZabcdefghijklmnopqrstuvwxyz0123456789+/".toList

def b64charOf (n : Nat) : Char := B64_CHARS.getD n '?'

def b64valOf (c : Char) : Nat := List.indexOf c B64_CHARS

/-- Standard base64 encoding with `'='` padding. -/
def b64encodeBytes : List Nat → List Char
  | a :: b :: c :: rest =>
      b64charOf (a / 4) :: b64charOf (a % 4 * 16 + b / 16) ::
        b64charOf (b % 16 * 4 + c / 64) :: b64charOf (c % 64) :: b64encodeBytes rest
  | [a, b] => [b64charOf (a / 4), b64charOf (a % 4 * 16 + b / 16), b64charOf (b % 16 * 4), '=']
  | [a] => [b64charOf (a / 4), b64charOf (a % 4 * 16), '=', '=']
  | [] => []

/-- Regrouping 6-bit values into bytes. -/
def b64decodeVals : List Nat → List Nat
  | a :: b :: c :: d :: rest =>
      (a * 4 + b / 16) :: (b % 16 * 16 + c / 4) :: (c % 4 * 64 + d) :: b64decodeVals rest
  | [a, b, c] => [a * 4 + b / 16, b % 16 * 16 + c / 4]
  | [a, b] => [a * 4 + b / 16]
  | _ => []

def b64decodeChars (cs : List Char) : List Nat :=
  b64decodeVals ((cs.filter (fun c => B64_CHARS.contains c)).map b64valOf)

/-- Python `base64.b64encode(bs).decode("utf-8")`. -/
def b64encodeStr (bs : List Nat) : String := String.mk (b64encodeBytes bs)

/-- Python `base64.b64decode(s)`. -/
def b64decodeStr (s : String) : List Nat := b64decodeChars s.data

/-! ## AES-CBC layer (`src/crypto.py`, lines 41-66)

The AES-256 block primitive itself lives in the external pycryptodome
library (`Crypto.Cipher.AES`), not in this repository.  It is passed as a
parameter: a keyed map from one 16-byte block to one 16-byte block,
constrained only by the hypotheses of the round-trip theorem.  `pad` and
`unpad` are pycryptodome's PKCS#7 helpers. -/

/-- UTF-8 bytes of one code point (Python `str.encode("utf-8")`). -/
def utf8Char (n : Nat) : List Nat :=
  if n < 128 then [n]
  else if n < 2048 then [192 + n / 64, 128 + n % 64]
  else if n < 65536 then [224 + n / 4096, 128 + n / 64 % 64, 128 + n % 64]
  else [240 + n / 262144, 128 + n / 4096 % 64, 128 + n / 64 % 64, 128 + n % 64]

/-- Python `str.encode("utf-8")`. -/
def utf8Encode (s : String) : List Nat :=
  (s.data.map (fun c => utf8Char c.toNat)).flatten

/-- PKCS#7 padding (`Crypto.Util.Padding.pad`, block size 16). -/
def pkcs7pad (bs : List Nat) : List Nat :=
  bs ++ List.replicate (16 - bs.length % 16) (16 - bs.length % 16)

/-- PKCS#7 unpadding (`Crypto.Util.Padding.unpad`); `none` models the
`ValueError` raised on invalid padding. -/
def pkcs7unpad (bs : List Nat) : Option (List Nat) :=
  if bs.length = 0 ∨ bs.length % 16 ≠ 0 then none
  else
    let p := bs.getLastD 0
    if p = 0 ∨ 16 < p then none
    else if bs.drop (bs.length - p) = List.replicate p p then some (bs.take (bs.length - p))
    else none

/-- Split a byte string into 16-byte blocks (fuel-driven so the recursion
is structural; the fuel never runs out when it starts at the length). -/
def chunks16Aux : Nat → List Nat → List (List Nat)
  | _, [] => []
  | 0, _ :: _ => []
  | fuel + 1, a :: rest => (a :: rest.take 15) :: chunks16Aux fuel (rest.drop 15)

def chunks16 (l : List Nat) : List (List Nat) := chunks16Aux l.length l

/-- Bytewise exclusive or. -/
def xorBytes (a b : List Nat) : List Nat := List.zipWith Nat.xor a b

/-- CBC encryption chaining: each block is xored with the previous
ciphertext block (initially the IV) before the block cipher. -/
def cbcEncryptBlocks (enc : List Nat → List Nat) : List Nat → List (List Nat) → List (List Nat)
  | _, [] => []
  | prev, b :: rest =>
      let cb := enc (xorBytes b prev)
      cb :: cbcEncryptBlocks enc cb rest

/-- CBC decryption chaining. -/
def cbcDecryptBlocks (dec : List Nat → List Nat) : List Nat → List (List Nat) → List (List Nat)
  | _, [] => []
  | prev, cb :: rest => xorBytes (dec cb) prev :: cbcDecryptBlocks dec cb rest

/-- `aes_encrypt` (`src/crypto.py`, lines 41-52): UTF-8 encode, PKCS#7 pad,
CBC-encrypt under the keyed block primitive, base64-encode. -/
def aes_encrypt (enc : String → List Nat → List Nat) (data key : String)
    (iv : List Nat) : String :=
  b64encodeStr (cbcEncryptBlocks (enc key) iv (chunks16 (pkcs7pad (utf8Encode data)))).flatten

/-- `aes_decrypt` (lines 55-66): base64-decode, CBC-decrypt, unpad, then
return the BASE64 of the decrypted bytes (`base64.b64encode(decrypted)`),
not the raw plaintext; a padding failure raises `ValueError`. -/
def aes_decrypt (dec : String → List Nat → List Nat) (ciphertext key : String)
    (iv : List Nat) : Except PyErr String :=
  match pkcs7unpad
      (cbcDecryptBlocks (dec key) iv (chunks16 (b64decodeStr ciphertext))).flatten with
  | some m => .ok (b64encodeStr m)
  | none => .error (.valueError "Padding is incorrect.")

/-- The identity block map: the simplest concrete instantiation of the
external block-cipher parameter. -/
def idBlockCipher (_ : String) (b : List Nat) : List Nat := b

def sampleAesKey : String := "0123456789abcdef0123456789abcdef"

def sampleIv : List Nat := List.replicate 16 0

/-! ## SHA-256 and HMAC-SHA256 (Python `hashlib` / `hmac`)

`hashlib.sha256` and `hmac.new(..., hashlib.sha256)` are Python
standard-library primitives; they are embedded in full (FIPS 180-4 /
RFC 2104) so that `get_signature` is executable.  Words are `Nat`s reduced
modulo `2 ^ 32`. -/

def w32 (n : Nat) : Nat := n % 4294967296

def not32 (x : Nat) : Nat := Nat.xor x 4294967295

def rotr32 (k x : Nat) : Nat := w32 (x / 2 ^ k + x % 2 ^ k * 2 ^ (32 - k))

def shr32 (k x : Nat) : Nat := x / 2 ^ k

def bsig0 (x : Nat) : Nat := Nat.xor (Nat.xor (rotr32 2 x) (rotr32 13 x)) (rotr32 22 x)

def bsig1 (x : Nat) : Nat := Nat.xor (Nat.xor (rotr32 6 x) (rotr32 11 x)) (rotr32 25 x)

def ssig0 (x : Nat) : Nat := Nat.xor (Nat.xor (rotr32 7 x) (rotr32 18 x)) (shr32 3 x)

def ssig1 (x : Nat) : Nat := Nat.xor (Nat.xor (rotr32 17 x) (rotr32 19 x)) (shr32 10 x)

def chFn (x y z : Nat) : Nat := Nat.xor (Nat.land x y) (Nat.land (not32 x) z)

def majFn (x y z : Nat) : Nat :=
  Nat.xor (Nat.xor (Nat.land x y) (Nat.land x z)) (Nat.land y z)

def K256 : List Nat :=
  [1116352408, 1899447441, 3049323471, 3921009573,
   961987163, 1508970993, 2453635748, 2870763221,
   3624381080, 310598401, 607225278, 1426881987,
   1925078388, 2162078206, 2614888103, 3248222580,
   3835390401, 4022224774, 264347078, 604807628,
   770255983, 1249150122, 1555081692, 1996064986,
   2554220882, 2821834349, 2952996808, 3210313671,
   3336571891, 3584528711, 113926993, 338241895,
   666307205, 773529912, 1294757372, 1396182291,
   1695183700, 1986661051, 2177026350, 2456956037,
   2730485921, 2820302411, 3259730800, 3345764771,
   3516065817, 3600352804, 4094571909, 275423344,
   430227734, 506948616, 659060556, 883997877,
   958139571, 1322822218, 1537002063, 1747873779,
   1955562222, 2024104815, 2227730452, 2361852424,
   2428436474, 2756734187, 3204031479, 3329325298]

/-- The eight working variables of the SHA-256 compression function. -/
structure H8 where
  a : Nat
  b : Nat
  c : Nat
  d : Nat
  e : Nat
  f : Nat
  g : Nat
  h : Nat

def initH : H8 :=
  ⟨1779033703, 3144134277, 1013904242, 2773480762,
   1359893119, 2600822924, 528734635, 1541459225⟩

def sha256Round (st : H8) (kw : Nat × Nat) : H8 :=
  let t1 := w32 (st.h + bsig1 st.e + chFn st.e st.f st.g + kw.1 + kw.2)
  let t2 := w32 (bsig0 st.a + majFn st.a st.b st.c)
  ⟨w32 (t1 + t2), st.a, st.b, st.c, w32 (st.d + t1), st.e, st.f, st.g⟩

/-- Extend the 16 chunk words to the 64-entry message schedule. -/
def msgSchedule (w16 : List Nat) : List Nat :=
  (List.range 48).foldl
    (fun acc i =>
      acc ++ [w32 (ssig1 (acc.getD (i + 14) 0) + acc.getD (i + 9) 0 +
        ssig0 (acc.getD (i + 1) 0) + acc.getD i 0)])
    w16

/-- Big-endian 32-bit words from bytes. -/
def toWords : List Nat → List Nat
  | a :: b :: c :: d :: rest => (a * 16777216 + b * 65536 + c * 256 + d) :: toWords rest
  | _ => []

/-- `k` big-endian bytes of `n`. -/
def beBytes : Nat → Nat → List Nat
  | 0, _ => []
  | k + 1, n => (n / 2 ^ (8 * k) % 256) :: beBytes k n

/-- SHA-256 message padding: `0x80`, zeros to 56 mod 64, 8-byte bit length. -/
def sha256pad (msg : List Nat) : List Nat :=
  msg ++ [128] ++ List.replicate ((119 - msg.length % 64) % 64) 0 ++
    beBytes 8 (8 * msg.length)

def compressChunk (st : H8) (w16 : List Nat) : H8 :=
  let fin := (List.zip K256 (msgSchedule w16)).foldl sha256Round st
  ⟨w32 (st.a + fin.a), w32 (st.b + fin.b), w32 (st.c + fin.c), w32 (st.d + fin.d),
   w32 (st.e + fin.e), w32 (st.f + fin.f), w32 (st.g + fin.g), w32 (st.h + fin.h)⟩

/-- SHA-256 digest (32 bytes) of a byte string. -/
def sha256 (msg : List Nat) : List Nat :=
  let ws := toWords (sha256pad msg)
  let fin := (chunks16Aux ws.length ws).foldl compressChunk initH
  beBytes 4 fin.a ++ beBytes 4 fin.b ++ beBytes 4 fin.c ++ beBytes 4 fin.d ++
    beBytes 4 fin.e ++ beBytes 4 fin.f ++ beBytes 4 fin.g ++ beBytes 4 fin.h

/-- HMAC-SHA256 (RFC 2104, block size 64). -/
def hmacSHA256 (key msg : List Nat) : List Nat :=
  let k0 := if 64 < key.length then sha256 key else key
  let kp := k0 ++ List.replicate (64 - k0.length) 0
  sha256 ((kp.map (fun b => Nat.xor b 92)) ++
    sha256 ((kp.map (fun b => Nat.xor b 54)) ++ msg))

/-! ## Compact JSON serialisation
(Python `json.dumps(data, separators=(",", ":"))` with default
`ensure_ascii=True`) -/

/-- `\uXXXX` escape, with a surrogate pair above the BMP. -/
def uEscape (n : Nat) : List Char :=
  if n < 65536 then '\\' :: 'u' :: zfillChars 4 (pyHexChars n)
  else
    ('\\' :: 'u' :: zfillChars 4 (pyHexChars (55296 + (n - 65536) / 1024))) ++
      ('\\' :: 'u' :: zfillChars 4 (pyHexChars (56320 + (n - 65536) % 1024)))

/-- Escaping of one character inside a JSON string (`ensure_ascii`
escapes everything outside `0x20`-`0x7e`). -/
def escapeChar (c : Char) : List Char :=
  if c = '"' then ['\\', '"']
  else if c = '\\' then ['\\', '\\']
  else if c = '\n' then ['\\', 'n']
  else if c = '\t' then ['\\', 't']
  else if c = '\r' then ['\\', 'r']
  else if c.toNat = 8 then ['\\', 'b']
  else if c.toNat = 12 then ['\\', 'f']
  else if c.toNat < 32 ∨ 126 < c.toNat then uEscape c.toNat
  else [c]

def dumpString (s : String) : List Char :=
  '"' :: (s.data.map escapeChar).flatten ++ ['"']

/-- Join serialised items with the compact `","` separator. -/
def joinComma : List (List Char) → List Char
  | [] => []
  | x :: rest => x ++ (rest.map (fun y => ',' :: y)).flatten

mutual

/-- Compact serialisation of a JSON value (separators `","` / `":"`). -/
def dumpJson : Json → List Char
  | .null => "null".data
  | .bool true => "true".data
  | .bool false => "false".data
  | .num n => (toString n).data
  | .str s => dumpString s
  | .arr xs => '[' :: (joinComma (dumpElems xs) ++ [']'])
  | .obj fs => '\x7b' :: (joinComma (dumpFields fs) ++ ['\x7d'])

def dumpElems : List Json → List (List Char)
  | [] => []
  | x :: xs => dumpJson x :: dumpElems xs

def dumpFields : List (String × Json) → List (List Char)
  | [] => []
  | (k, v) :: fs => (dumpString k ++ ':' :: dumpJson v) :: dumpFields fs

end

/-! ## Request signing (`src/crypto.py`, lines 93-125) -/

/-- `get_signature`: HMAC-SHA256 over the UTF-8 bytes of the serialised
request, keyed by the base64-decoded sign key, base64-encoded. -/
def get_signature (data key : String) : String :=
  b64encodeStr (hmacSHA256 (b64decodeStr key) (utf8Encode data))

/-- The fixed no-sign allow-list (`NO_SIGN_REQUESTS`, line 107). -/
def NO_SIGN_REQUESTS : List String :=
  ["encrypted", "util.getSI", "util.crypto.getRSAPub", "ping"]

/-- Python `req in NO_SIGN_REQUESTS` where `req` is the JSON value of the
`req` field: a non-string value never equals any of the strings. -/
def jsonInStrList (j : Json) (l : List String) : Bool :=
  match j with
  | .str s => l.contains s
  | _ => false

/-- `sign_request` (lines 110-125): serialise compactly; when the `req`
field (`data.get("req", "")`) is not allow-listed and a truthy sign key is
present, prepend the signature with no delimiter, else send the bare
JSON. -/
def sign_request (data : List (String × Json)) (sign_key : Option String) : String :=
  if !jsonInStrList ((dictGet data "req").getD (Json.str "")) NO_SIGN_REQUESTS &&
      pyTruthyOptStr sign_key then
    get_signature (String.mk (dumpJson (Json.obj data))) (sign_key.getD "") ++
      String.mk (dumpJson (Json.obj data))
  else String.mk (dumpJson (Json.obj data))

/-- A concrete signed request. -/
def sampleSignedRequest : List (String × Json) :=
  [("req", Json.str "user.authToken"), ("reqid", Json.str "00000001")]

/-- A concrete base64-encoded sign key. -/
def sampleSignKey : String := "c2VjcmV0"

/-- A configuration whose entry token expires at the instant recognised by
`parse0`. -/
def cfgEntryAtZero : ServerConfig :=
  { entry_token_expires_at := some "2024-01-01T00:00:00" }

theorem hexVal_hexChar : ∀ d, d < 16 → hexDigitValOf (hexDigitCharOf d) = d := by decide

theorem fromHexRev_toHexRevAux :
    ∀ fuel n, n ≤ fuel → fromHexRev (toHexRevAux fuel n) = n := by
  intro fuel
  induction fuel with
  | zero => intro n h; interval_cases n; rfl
  | succ fuel ih =>
    intro n h
    match n with
    | 0 => rfl
    | m + 1 =>
      rw [toHexRevAux, fromHexRev, ih ((m + 1) / 16) (by
          have := Nat.div_lt_self (Nat.succ_pos m) (show 1 < 16 by omega)
          omega),
        hexVal_hexChar _ (Nat.mod_lt _ (by omega))]
      omega

theorem fromHexRev_toHexRev (n : Nat) : fromHexRev (toHexRev n) = n :=
  fromHexRev_toHexRevAux n n (Nat.le_refl n)

theorem fromHexRev_append_zeros (l : List Char) (k : Nat) :
    fromHexRev (l ++ List.replicate k '0') = fromHexRev l := by
  induction l with
  | nil =>
    show fromHexRev (List.replicate k '0') = 0
    induction k with
    | zero => rfl
    | succ k ih => rw [List.replicate_succ, fromHexRev, ih]; decide
  | cons d rest ih => rw [List.cons_append, fromHexRev, fromHexRev, ih]

/-- Decoding is a left inverse of zero-filled hexadecimal formatting. -/
theorem fromHexChars_zfill_pyHex (w n : Nat) :
    fromHexChars (zfillChars w (pyHexChars n)) = n := by
  rw [fromHexChars, zfillChars, List.reverse_append, List.reverse_replicate,
    fromHexRev_append_zeros]
  by_cases h : n = 0
  · subst h; rfl
  · rw [pyHexChars, if_neg h, List.reverse_reverse, fromHexRev_toHexRev]

theorem toHexRevAux_length_le :
    ∀ fuel n k, n ≤ fuel → n < 16 ^ k → (toHexRevAux fuel n).length ≤ k := by
  intro fuel
  induction fuel with
  | zero => intro n k h _; interval_cases n; exact Nat.zero_le _
  | succ fuel ih =>
    intro n k h hk
    match n with
    | 0 => exact Nat.zero_le _
    | m + 1 =>
      match k with
      | 0 => simp at hk
      | k + 1 =>
        rw [toHexRevAux, List.length_cons]
        have hd : (m + 1) / 16 < 16 ^ k := by
          apply Nat.div_lt_of_lt_mul
          rw [Nat.mul_comm]
          exact hk.trans_eq (pow_succ 16 k)
        have hf : (m + 1) / 16 ≤ fuel := by
          have := Nat.div_lt_self (Nat.succ_pos m) (show 1 < 16 by omega)
          omega
        exact Nat.succ_le_succ (ih _ _ hf hd)

theorem toHexRev_length_le (k n : Nat) (h : n < 16 ^ k) : (toHexRev n).length ≤ k :=
  toHexRevAux_length_le n n k (Nat.le_refl n) h

theorem pyHexChars_length_le {k n : Nat} (hk : 1 ≤ k) (h : n < 16 ^ k) :
    (pyHexChars n).length ≤ k := by
  rw [pyHexChars]
  by_cases h0 : n = 0
  · rw [if_pos h0]; exact hk
  · rw [if_neg h0, List.length_reverse]; exact toHexRev_length_le k n h

theorem zfillChars_length {w : Nat} {s : List Char} (h : s.length ≤ w) :
    (zfillChars w s).length = w := by
  rw [zfillChars, List.length_append, List.length_replicate]
  omega

theorem mkReqId_counter_inj {ts1 ts2 i1 i2 : Nat} {back1 back2 : List Char}
    (ht1 : ts1 < 16 ^ 8) (ht2 : ts2 < 16 ^ 8)
    (hb1 : back1.length = 16) (hb2 : back2.length = 16)
    (h : mkReqId ts1 back1 i1 = mkReqId ts2 back2 i2) : i1 = i2 := by
  have hlist : zfillChars 8 (pyHexChars ts1) ++ back1 ++ zfillChars 4 (pyHexChars i1) =
      zfillChars 8 (pyHexChars ts2) ++ back2 ++ zfillChars 4 (pyHexChars i2) := by
    have := congrArg String.data h
    simpa [mkReqId] using this
  rw [List.append_assoc, List.append_assoc] at hlist
  have hlen : (zfillChars 8 (pyHexChars ts1)).length = (zfillChars 8 (pyHexChars ts2)).length := by
    rw [zfillChars_length (pyHexChars_length_le (by omega) ht1),
      zfillChars_length (pyHexChars_length_le (by omega) ht2)]
  obtain ⟨-, hrest⟩ := List.append_inj hlist hlen
  obtain ⟨-, htail⟩ := List.append_inj hrest (hb1.trans hb2.symm)
  have := congrArg fromHexChars htail
  rwa [fromHexChars_zfill_pyHex, fromHexChars_zfill_pyHex] at this

theorem genRun_get? :
    ∀ (reqs : List (Nat × List Char)) (g n : Nat) (ts : Nat) (back : List Char),
      reqs.get? n = some (ts, back) →
      (genRun g reqs).2.get? n = some (mkReqId ts back (g + n + 1)) := by
  intro reqs
  induction reqs with
  | nil => intro g n ts back h; simp at h
  | cons p rest ih =>
    intro g n ts back h
    match n with
    | 0 =>
      simp only [List.get?] at h
      cases h
      simp [genRun, generate]
    | m + 1 =>
      simp only [List.get?] at h
      have := ih (g + 1) m ts back h
      simpa [genRun, generate, Nat.add_assoc, Nat.add_comm 1 m] using this

/-- C6 counterexample: the request-id counter is NOT per-connection.  The
module-level generator is shared, so after one request on a first
connection, the first request of a second connection carries counter value
2, not the counter value 1 the claim predicts for the first request of each
connection. -/
theorem C6_counterexample :
    (genRun 0 [(0, defaultBackId), (0, defaultBackId)]).2.get? 1 =
        some (mkReqId 0 defaultBackId 2) ∧
    mkReqId 0 defaultBackId 2 ≠ mkReqId 0 defaultBackId 1 := by
  constructor
  · rfl
  · decide

/-- C6 (amended): every generated request id equals the hex of the unix
timestamp zero-padded to width 8, followed by the 16-character backId,
followed by the hex of the counter zero-padded to width 4; the counter is a
single process-wide counter shared by all connections, starting at 1 for
the first request of the process and increasing by one per request, and ids
are never reused, in particular not across connections (for timestamps
below `16 ^ 8` and 16-character backIds). -/
theorem C6_reqid_format_global_counter
    (g : Nat) (reqs : List (Nat × List Char)) (m n tm tn : Nat) (bm bn : List Char)
    (hm : reqs.get? m = some (tm, bm)) (hn : reqs.get? n = some (tn, bn))
    (hmn : m ≠ n) (htm : tm < 16 ^ 8) (htn : tn < 16 ^ 8)
    (hbm : bm.length = 16) (hbn : bn.length = 16) :
    (genRun g reqs).2.get? m = some (mkReqId tm bm (g + m + 1)) ∧
    (genRun g reqs).2.get? n = some (mkReqId tn bn (g + n + 1)) ∧
    mkReqId tm bm (g + m + 1) ≠ mkReqId tn bn (g + n + 1) := by
  refine ⟨genRun_get? reqs g m tm bm hm, genRun_get? reqs g n tn bn hn, fun h => ?_⟩
  have := mkReqId_counter_inj htm htn hbm hbn h
  omega

/-- C6 witness: the amended theorem instantiated on a concrete two-request
trace spanning two connections. -/
theorem C6_reqid_format_global_counter_witness :
    (genRun 0 [(0, defaultBackId), (0, defaultBackId)]).2.get? 0 =
        some (mkReqId 0 defaultBackId 1) ∧
    mkReqId 0 defaultBackId 1 ≠ mkReqId 0 defaultBackId 2 := by
  have h := C6_reqid_format_global_counter 0 [(0, defaultBackId), (0, defaultBackId)]
    0 1 0 0 defaultBackId defaultBackId rfl rfl (by omega) (by norm_num) (by norm_num)
    (by decide) (by decide)
  exact ⟨h.1, h.2.2⟩

theorem pendingLookup_remove_self (k : String) (d : List (String × Nat)) :
    pendingLookup k (pendingRemove k d) = none := by
  have hf : (pendingRemove k d).find? (fun p => p.1 == k) = none := by
    rw [List.find?_eq_none]
    intro x hx
    have hmem := (List.mem_filter.mp hx).2
    simp only [Bool.not_eq_true', beq_eq_false_iff_ne, ne_eq] at hmem
    simp [hmem]
  rw [pendingLookup, hf, Option.map_none']

theorem pendingLookup_remove_ne (k k' : String) (d : List (String × Nat)) (h : k' ≠ k) :
    pendingLookup k' (pendingRemove k d) = pendingLookup k' d := by
  induction d with
  | nil => rfl
  | cons p rest ih =>
    by_cases hp : p.1 = k
    · have hq : p.1 ≠ k' := fun e => h (e.symm.trans hp)
      simpa [pendingRemove, pendingLookup, List.filter_cons, List.find?_cons, hp, hq, h,
        Ne.symm h] using ih
    · by_cases hq : p.1 = k'
      · simp [pendingRemove, pendingLookup, List.filter_cons, List.find?_cons, hp, hq, h,
          Ne.symm h]
      · simpa [pendingRemove, pendingLookup, List.filter_cons, List.find?_cons, hp, hq]
          using ih

/-- C1: for any state of one connection's pending table, an inbound
response frame whose truthy `reqid` matches a pending request resolves
exactly that request's future and removes exactly that entry from the
pending table; no other future or entry changes, an already-resolved
future is never changed again, and a response arriving once the entry has
been removed (e.g. by that request's timeout) leaves the state unchanged —
it is silently dropped. -/
theorem C1_response_dispatch (s : ClientState) (data : List (String × Json))
    (rid : String) (idx : Nat)
    (hreq : dictGet data "reqid" = some (Json.str rid))
    (hrid : rid ≠ "")
    (hidx : pendingLookup rid s.pending = some idx) :
    (pendingLookup rid (recvStep s (some data)).pending = none) ∧
    (∀ k, k ≠ rid →
      pendingLookup k (recvStep s (some data)).pending = pendingLookup k s.pending) ∧
    (s.futures[idx]? = some Slot.waiting →
      (recvStep s (some data)).futures[idx]? = some (Slot.resolved data)) ∧
    (∀ j, j ≠ idx → (recvStep s (some data)).futures[j]? = s.futures[j]?) ∧
    (∀ (j : Nat) (d0 : List (String × Json)), s.futures[j]? = some (Slot.resolved d0) →
      (recvStep s (some data)).futures[j]? = some (Slot.resolved d0)) ∧
    (pendingLookup rid (timeoutStep s rid).pending = none) ∧
    (∀ (s2 : ClientState) (data2 : List (String × Json)),
      pendingLookup rid s2.pending = none →
      dictGet data2 "reqid" = some (Json.str rid) →
      recvStep s2 (some data2) = s2) := by
  have htr : truthyJson (Json.str rid) = true := by simp [truthyJson, hrid]
  have hs : recvStep s (some data) =
      { s with pending := pendingRemove rid s.pending,
               futures := match s.futures[idx]? with
                 | some .waiting => s.futures.set idx (.resolved data)
                 | _ => s.futures } := by
    simp only [recvStep, hreq, htr, if_true, hidx]
  have h4 : ∀ j, j ≠ idx → (recvStep s (some data)).futures[j]? = s.futures[j]? := by
    intro j hj
    rw [hs]
    cases hfi : s.futures[idx]? with
    | none => rfl
    | some sl =>
      cases sl with
      | waiting =>
        simp only
        exact List.getElem?_set_ne (fun e => hj e.symm)
      | resolved d0 => rfl
      | failed e => rfl
  refine ⟨?_, ?_, ?_, h4, ?_, ?_, ?_⟩
  · rw [hs]; exact pendingLookup_remove_self rid s.pending
  · intro k hk; rw [hs]; exact pendingLookup_remove_ne rid k s.pending hk
  · intro hw
    rw [hs]
    simp only [hw]
    have hlt : idx < s.futures.length := by
      rcases List.getElem?_eq_some.mp hw with ⟨h, -⟩
      exact h
    exact List.getElem?_set_eq_of_lt _ hlt
  · intro j d0 hr
    by_cases hji : j = idx
    · subst hji
      rw [hs]
      simp only [hr]
    · rw [h4 j hji]; exact hr
  · exact pendingLookup_remove_self rid s.pending
  · intro s2 data2 hnone hr2
    simp only [recvStep, hr2, htr, if_true, hnone]

/-- C1 witness: the dispatch theorem applied to the concrete one-request
state. -/
theorem C1_response_dispatch_witness :
    pendingLookup "r1" (recvStep sampleClientState (some sampleResponse)).pending = none ∧
    (recvStep sampleClientState (some sampleResponse)).futures[0]? =
      some (Slot.resolved sampleResponse) := by
  have h := C1_response_dispatch sampleClientState sampleResponse "r1" 0 rfl
    (by decide) rfl
  exact ⟨h.1, h.2.2.1 rfl⟩

/-- C2 counterexample: with one request pending, both the client's `close`
and the receive loop's reaction to a remote `ConnectionClosed` leave the
request pending and its future still waiting — it is not resolved with a
`ConnectionClosedError` (nor with anything else), contrary to the claim. -/
theorem C2_counterexample :
    (closeStep sampleClientState).pending = [("r1", 0)] ∧
    (closeStep sampleClientState).futures = [Slot.waiting] ∧
    (remoteClosedStep sampleClientState).pending = [("r1", 0)] ∧
    (remoteClosedStep sampleClientState).futures = [Slot.waiting] ∧
    Slot.waiting ≠ Slot.failed (PyErr.connectionClosedError "connection closed") := by
  refine ⟨rfl, rfl, rfl, rfl, fun h => ?_⟩
  cases h

/-- C2 (amended): closing the connection (`close`), or the receive loop
observing a remote closure, resolves no pending request at all: every
pending entry stays in the table and its future keeps its previous state
(in particular a waiting future stays waiting and is never failed with a
`ConnectionClosedError`, a class the source never constructs); a pending
caller can only terminate through a matching response or its own request
timeout. -/
theorem C2_close_resolves_nothing (s : ClientState) :
    (closeStep s).pending = s.pending ∧ (closeStep s).futures = s.futures ∧
    (remoteClosedStep s).pending = s.pending ∧ (remoteClosedStep s).futures = s.futures ∧
    (∀ k i, pendingLookup k s.pending = some i →
      pendingLookup k (closeStep s).pending = some i ∧
      pendingLookup k (remoteClosedStep s).pending = some i ∧
      (closeStep s).futures[i]? = s.futures[i]? ∧
      (remoteClosedStep s).futures[i]? = s.futures[i]?) :=
  ⟨rfl, rfl, rfl, rfl, fun _ _ h => ⟨h, h, rfl, rfl⟩⟩

/-- C2 witness: the amended theorem applied to the concrete one-request
state. -/
theorem C2_close_resolves_nothing_witness :
    pendingLookup "r1" (closeStep sampleClientState).pending = some 0 ∧
    (closeStep sampleClientState).futures[0]? = sampleClientState.futures[0]? := by
  have h := (C2_close_resolves_nothing sampleClientState).2.2.2.2 "r1" 0 rfl
  exact ⟨h.1, h.2.2.1⟩

/-- C3 counterexample: the claim says a stored timestamp equal to the
current time counts as expired (`timestamp ≤ now`), but `_check_expires_at`
uses a strict `datetime.now() > expires_at`, so at `timestamp = now` it
reports not-expired. -/
theorem C3_counterexample :
    parse0 "2024-01-01T00:00:00" = some 0 ∧ (0 : Int) ≤ 0 ∧
    _check_expires_at parse0 0 (some "2024-01-01T00:00:00") = false :=
  ⟨rfl, le_refl 0, rfl⟩

/-- C3 (amended): the expiry predicate returns true exactly when the stored
value is absent, empty or unparsable, or its timestamp is STRICTLY earlier
than the current time; the three wrappers feed it the effective stored
value (`entry_token_expires_at or expires_at`, `fnos_token_expires_at or
expires_at`, `long_token_expires_at`), a missing config being expired; and
`token_needs_refresh` returns true exactly when the effective entry expiry
is present and parsable and `now > expiry - threshold` (so absent or
unparsable values advise no refresh). -/
theorem C3_expiry_characterization (parse : String → Option Int)
    (now threshold : Int) (v : Option String) (c : ServerConfig) :
    (_check_expires_at parse now v = true ↔ ∀ t, effTs parse v = some t → t < now) ∧
    (is_entry_token_expired parse now (some c) =
      _check_expires_at parse now (pyOrStr c.entry_token_expires_at c.expires_at)) ∧
    (is_fnos_token_expired parse now (some c) =
      _check_expires_at parse now (pyOrStr c.fnos_token_expires_at c.expires_at)) ∧
    (is_long_token_expired parse now (some c) =
      _check_expires_at parse now c.long_token_expires_at) ∧
    (is_entry_token_expired parse now none = true) ∧
    (token_needs_refresh parse now threshold (some c) = true ↔
      ∃ t, effTs parse (pyOrStr c.entry_token_expires_at c.expires_at) = some t ∧
        t - threshold < now) ∧
    (token_needs_refresh parse now threshold none = false) := by
  refine ⟨?_, rfl, rfl, rfl, rfl, ?_, rfl⟩
  · cases v with
    | none => simp [_check_expires_at, effTs]
    | some s =>
      by_cases hs : s = ""
      · simp [_check_expires_at, effTs, hs]
      · cases hp : parse s with
        | none => simp [_check_expires_at, effTs, hs, hp]
        | some t => simp [_check_expires_at, effTs, hs, hp, gt_iff_lt]
  · cases hv : pyOrStr c.entry_token_expires_at c.expires_at with
    | none => simp [token_needs_refresh, effTs, hv]
    | some s =>
      by_cases hs : s = ""
      · simp [token_needs_refresh, effTs, hv, hs]
      · cases hp : parse s with
        | none => simp [token_needs_refresh, effTs, hv, hs, hp]
        | some t => simp [token_needs_refresh, effTs, hv, hs, hp, gt_iff_lt, Int.sub_lt_iff]

/-- C10: when the effective stored entry-token expiry (the
`entry_token_expires_at or expires_at` value) is absent, empty or
unparsable, `token_needs_refresh` reports false while
`is_entry_token_expired` reports the very same state as already expired. -/
theorem C10_absent_expiry_no_refresh (parse : String → Option Int)
    (now threshold : Int) (c : ServerConfig)
    (habs : effTs parse (pyOrStr c.entry_token_expires_at c.expires_at) = none) :
    token_needs_refresh parse now threshold (some c) = false ∧
    is_entry_token_expired parse now (some c) = true := by
  cases hv : pyOrStr c.entry_token_expires_at c.expires_at with
  | none =>
    exact ⟨by simp [token_needs_refresh, hv], by simp [is_entry_token_expired,
      _check_expires_at, hv]⟩
  | some s =>
    rw [hv] at habs
    by_cases hs : s = ""
    · exact ⟨by simp [token_needs_refresh, hv, hs], by simp [is_entry_token_expired,
        _check_expires_at, hv, hs]⟩
    · have hp : parse s = none := by simpa [effTs, hs] using habs
      exact ⟨by simp [token_needs_refresh, hv, hs, hp], by simp [is_entry_token_expired,
        _check_expires_at, hv, hs, hp]⟩

/-- C10 witness: a config with no expiry fields at all is expired yet not
flagged for refresh. -/
theorem C10_absent_expiry_no_refresh_witness :
    token_needs_refresh parse0 0 0 (some {}) = false ∧
    is_entry_token_expired parse0 0 (some {}) = true :=
  C10_absent_expiry_no_refresh parse0 0 0 {} rfl

/-- C8: on an error-free response the exchange-entry-token operation
returns the entry-token string when the response carries one, and fails
(raises) whenever the response contains no token field. -/
theorem C8_entry_token_exchange (resp : List (String × Json))
    (hno : dictGet resp "errno" = none) :
    (∀ t : String, tokenFieldOf resp = some (Json.str t) → t ≠ "" →
      _get_entry_token resp = .ok (Json.str t)) ∧
    (tokenFieldOf resp = none →
      _get_entry_token resp = .error (.runtimeError "刷新失败: 未能获取 entry-token")) := by
  have hx : exchange_entry_token resp = .ok resp := by
    simp [exchange_entry_token, hno]
  constructor
  · intro t ht hne
    simp [_get_entry_token, hx, ht, truthyJson, hne]
  · intro ht
    simp [_get_entry_token, hx, ht]

/-- C8 witness: both branches of the exchange contract on concrete
responses. -/
theorem C8_entry_token_exchange_witness :
    _get_entry_token sampleEntryOk = .ok (Json.str "0123abcd") ∧
    _get_entry_token sampleEntryNoToken =
      .error (.runtimeError "刷新失败: 未能获取 entry-token") :=
  ⟨(C8_entry_token_exchange sampleEntryOk rfl).1 "0123abcd" rfl (by decide),
   (C8_entry_token_exchange sampleEntryNoToken rfl).2 rfl⟩

/-- C9: if the exchange-entry-token call fails during `do_login` (raises,
or yields no truthy token in the response), the persisted `entry_token`
equals the raw session token obtained from login and the warning flag is
set. -/
theorem C9_entry_token_fallback (username t : String) (ht : t ≠ "")
    (long_token : Option Json) (entryResult : Except PyErr (List (String × Json)))
    (hfail : truthyOptJson (extractEntryToken entryResult) = false) :
    do_login_persist username (some t) long_token entryResult =
      .ok { username := username, fnos_token := t, long_token := long_token,
            entry_token := some (Json.str t), entry_token_warning := true } := by
  simp [do_login_persist, hfail, pyTruthyOptStr, ht]

/-- C9 witness: a raising exchange call on a successful login. -/
theorem C9_entry_token_fallback_witness :
    do_login_persist "user" (some "TOK") none (.error (.runtimeError "boom")) =
      .ok { username := "user", fnos_token := "TOK", long_token := none,
            entry_token := some (Json.str "TOK"), entry_token_warning := true } :=
  C9_entry_token_fallback "user" "TOK" (by decide) none (.error (.runtimeError "boom")) rfl

/-- C7 counterexample: a padding `ValueError` (the spec's `CryptoError`,
raised by `aes_decrypt` on a corrupted server secret) inside the
long-token strategy is swallowed by `except Exception` and the cascade
falls through to the credential re-login strategy, instead of surfacing
the crypto error immediately as the claim states. -/
theorem C7_counterexample :
    do_refresh parse0 0 (some cfgLongOnly) (.ok ())
        (.error (.valueError "Padding is incorrect."))
        (some { username := "user", password := "pw" }) (.ok ()) = .ok 3 ∧
    (Except.ok 3 : Except PyErr Nat) ≠ .error (.valueError "Padding is incorrect.") := by
  refine ⟨rfl, fun h => ?_⟩
  cases h

/-- C7 (amended): the refresh cascade recovers from EVERY exception at
strategy levels 1 and 2 — authentication, timeout, connection and crypto
errors alike — by falling through; no failure kind is surfaced from those
levels (the result does not depend on which errors they raised), and with
both levels failing the outcome is exactly the credential-re-login tail:
its error (of any kind) when truthy saved credentials exist, otherwise the
aggregated re-login `RuntimeError`. -/
theorem C7_cascade_swallows_all_errors (parse : String → Option Int) (now : Int)
    (cfg : Option ServerConfig) (e1 e1' e2 e2' : PyErr) (creds : Option Creds)
    (r3 : Except PyErr Unit) :
    (do_refresh parse now cfg (.error e1) (.error e2) creds r3 =
      do_refresh parse now cfg (.error e1') (.error e2') creds r3) ∧
    (∀ c : ServerConfig, cfg = some c → pyTruthyOptStr c.url = true →
      (pyTruthyOptStr c.fnos_token || pyTruthyOptStr c.long_token) = true →
      ((creds = none →
        do_refresh parse now cfg (.error e1) (.error e2) creds r3 =
          .error (.runtimeError "Token 已失效且未保存凭据，请重新登录")) ∧
       (∀ u p, creds = some { username := u, password := p } → u ≠ "" → p ≠ "" →
        do_refresh parse now cfg (.error e1) (.error e2) creds r3 =
          (match r3 with
           | .ok _ => .ok 3
           | .error e => .error e)))) := by
  constructor
  · rfl
  · intro c hc hurl htok
    subst hc
    have hgate : (!pyTruthyOptStr c.fnos_token && !pyTruthyOptStr c.long_token) = false := by
      revert htok
      cases pyTruthyOptStr c.fnos_token <;> cases pyTruthyOptStr c.long_token <;> simp
    constructor
    · intro hcreds
      subst hcreds
      simp [do_refresh, hurl, hgate, ite_self]
    · intro u p hcreds hu hp
      subst hcreds
      simp [do_refresh, hurl, hgate, ite_self, hu, hp]

/-- C7 witness: the amended theorem on a concrete config, two concrete
strategy errors (one of them a crypto padding error) and no saved
credentials. -/
theorem C7_cascade_swallows_all_errors_witness :
    do_refresh parse0 0 (some cfgLongOnly) (.error (.runtimeError "auth failed"))
        (.error (.valueError "Padding is incorrect.")) none (.ok ()) =
      .error (.runtimeError "Token 已失效且未保存凭据，请重新登录") :=
  ((C7_cascade_swallows_all_errors parse0 0 (some cfgLongOnly)
      (.runtimeError "auth failed") (.runtimeError "auth failed")
      (.valueError "Padding is incorrect.") (.valueError "Padding is incorrect.")
      none (.ok ())).2 cfgLongOnly rfl rfl rfl).1 rfl

theorem b64charOf_mem : ∀ v, v < 64 → B64_CHARS.contains (b64charOf v) = true := by decide

theorem b64valOf_b64charOf : ∀ v, v < 64 → b64valOf (b64charOf v) = v := by decide

theorem b64_pad_not_mem : B64_CHARS.contains '=' = false := by decide

theorem b64encodeBytes_length :
    ∀ bs : List Nat, (b64encodeBytes bs).length = (bs.length + 2) / 3 * 4
  | [] => rfl
  | [_] => by simp [b64encodeBytes]
  | [_, _] => by simp [b64encodeBytes]
  | _ :: _ :: _ :: rest => by
      rw [b64encodeBytes]
      simp only [List.length_cons, b64encodeBytes_length rest]
      omega

theorem b64_roundtrip :
    ∀ bs : List Nat, (∀ x ∈ bs, x < 256) → b64decodeChars (b64encodeBytes bs) = bs
  | [], _ => rfl
  | [a], h => by
      have ha : a < 256 := h a (by simp)
      rw [b64encodeBytes, b64decodeChars]
      rw [List.filter_cons_of_pos (b64charOf_mem _ (by omega)),
        List.filter_cons_of_pos (b64charOf_mem _ (by omega)),
        List.filter_cons_of_neg (by rw [b64_pad_not_mem]; exact Bool.false_ne_true),
        List.filter_cons_of_neg (by rw [b64_pad_not_mem]; exact Bool.false_ne_true),
        List.filter_nil, List.map_cons, List.map_cons, List.map_nil,
        b64valOf_b64charOf _ (by omega), b64valOf_b64charOf _ (by omega), b64decodeVals]
      have : a / 4 * 4 + a % 4 * 16 / 16 = a := by omega
      rw [this]
  | [a, b], h => by
      have ha : a < 256 := h a (by simp)
      have hb : b < 256 := h b (by simp)
      rw [b64encodeBytes, b64decodeChars]
      rw [List.filter_cons_of_pos (b64charOf_mem _ (by omega)),
        List.filter_cons_of_pos (b64charOf_mem _ (by omega)),
        List.filter_cons_of_pos (b64charOf_mem _ (by omega)),
        List.filter_cons_of_neg (by rw [b64_pad_not_mem]; exact Bool.false_ne_true),
        List.filter_nil, List.map_cons, List.map_cons, List.map_cons, List.map_nil,
        b64valOf_b64charOf _ (by omega), b64valOf_b64charOf _ (by omega),
        b64valOf_b64charOf _ (by omega), b64decodeVals]
      have h1 : a / 4 * 4 + (a % 4 * 16 + b / 16) / 16 = a := by omega
      have h2 : (a % 4 * 16 + b / 16) % 16 * 16 + b % 16 * 4 / 4 = b := by omega
      rw [h1, h2]
  | a :: b :: c :: rest, h => by
      have ha : a < 256 := h a (by simp)
      have hb : b < 256 := h b (by simp)
      have hc : c < 256 := h c (by simp)
      have ih := b64_roundtrip rest (fun x hx => h x (by simp [hx]))
      rw [b64decodeChars] at ih
      rw [b64encodeBytes, b64decodeChars]
      rw [List.filter_cons_of_pos (b64charOf_mem _ (by omega)),
        List.filter_cons_of_pos (b64charOf_mem _ (by omega)),
        List.filter_cons_of_pos (b64charOf_mem _ (by omega)),
        List.filter_cons_of_pos (b64charOf_mem _ (by omega)),
        List.map_cons, List.map_cons, List.map_cons, List.map_cons,
        b64valOf_b64charOf _ (by omega), b64valOf_b64charOf _ (by omega),
        b64valOf_b64charOf _ (by omega), b64valOf_b64charOf _ (by omega), b64decodeVals]
      have h1 : a / 4 * 4 + (a % 4 * 16 + b / 16) / 16 = a := by omega
      have h2 : (a % 4 * 16 + b / 16) % 16 * 16 + (b % 16 * 4 + c / 64) / 4 = b := by omega
      have h3 : (b % 16 * 4 + c / 64) % 4 * 64 + c % 64 = c := by omega
      rw [h1, h2, h3, ih]

theorem utf8Char_lt (c : Char) : ∀ x ∈ utf8Char c.toNat, x < 256 := by
  have hv : c.toNat < 1114112 := by
    rcases c.valid with h | h
    · exact h.trans (by norm_num)
    · exact h.2
  intro x hx
  rw [utf8Char] at hx
  split at hx
  · simp at hx; omega
  · split at hx
    · simp at hx; rcases hx with h | h <;> omega
    · split at hx
      · simp at hx; rcases hx with h | h | h <;> omega
      · simp at hx; rcases hx with h | h | h | h <;> omega

theorem utf8Encode_lt (s : String) : ∀ x ∈ utf8Encode s, x < 256 := by
  intro x hx
  rw [utf8Encode, List.mem_flatten] at hx
  rcases hx with ⟨l, hl, hxl⟩
  rcases List.mem_map.mp hl with ⟨c, -, rfl⟩
  exact utf8Char_lt c x hxl

theorem pkcs7pad_lt {bs : List Nat} (h : ∀ x ∈ bs, x < 256) :
    ∀ x ∈ pkcs7pad bs, x < 256 := by
  intro x hx
  rcases List.mem_append.mp hx with hm | hm
  · exact h x hm
  · have := List.eq_of_mem_replicate hm
    omega

theorem pkcs7pad_length_mod (bs : List Nat) : (pkcs7pad bs).length % 16 = 0 := by
  rw [pkcs7pad, List.length_append, List.length_replicate]
  omega

theorem pkcs7pad_ne_nil (bs : List Nat) : (pkcs7pad bs).length ≠ 0 := by
  rw [pkcs7pad, List.length_append, List.length_replicate]
  omega

/-- Unpadding inverts padding. -/
theorem pkcs7unpad_pkcs7pad (m : List Nat) : pkcs7unpad (pkcs7pad m) = some m := by
  set p := 16 - m.length % 16 with hp
  have hp1 : 1 ≤ p := by omega
  have hp16 : p ≤ 16 := by omega
  have hlast : (pkcs7pad m).getLastD 0 = p := by
    rw [pkcs7pad, ← hp, List.getLastD_eq_getLast?,
      List.getLast?_append_of_ne_nil m (by
        intro hnil
        have := congrArg List.length hnil
        simp at this
        omega)]
    match p, hp1 with
    | q + 1, _ =>
      have hg : List.getLast? (List.replicate (q + 1) (q + 1)) = some (q + 1) := by
        rw [List.getLast?_eq_getLast _ (by
          intro hnil
          have := congrArg List.length hnil
          simp at this)]
        simp [List.getLast_replicate]
      simp [hg]
  have hlen : (pkcs7pad m).length = m.length + p := by
    rw [pkcs7pad, ← hp, List.length_append, List.length_replicate]
  rw [pkcs7unpad, if_neg (by
    rw [hlen]
    push_neg
    constructor
    · omega
    · have := pkcs7pad_length_mod m
      rw [hlen] at this
      omega)]
  simp only [hlast]
  rw [if_neg (by omega)]
  have hdrop : (pkcs7pad m).drop ((pkcs7pad m).length - p) = List.replicate p p := by
    rw [hlen, pkcs7pad, ← hp, Nat.add_sub_cancel, List.drop_left]
  have htake : (pkcs7pad m).take ((pkcs7pad m).length - p) = m := by
    rw [hlen, pkcs7pad, ← hp, Nat.add_sub_cancel, List.take_left]
  rw [if_pos hdrop, htake]

theorem chunks16Aux_join :
    ∀ fuel l, l.length ≤ fuel → l.length % 16 = 0 → (chunks16Aux fuel l).flatten = l := by
  intro fuel
  induction fuel with
  | zero =>
    intro l h _
    match l, h with
    | [], _ => rfl
  | succ fuel ih =>
    intro l h hm
    match l with
    | [] => rfl
    | a :: rest =>
      have hr : 15 ≤ rest.length := by
        rw [List.length_cons] at hm
        omega
      rw [chunks16Aux, List.flatten_cons, List.cons_append]
      have hd : (rest.drop 15).length ≤ fuel := by
        rw [List.length_drop]
        rw [List.length_cons] at h
        omega
      have hdm : (rest.drop 15).length % 16 = 0 := by
        rw [List.length_drop]
        rw [List.length_cons] at hm
        omega
      rw [ih (rest.drop 15) hd hdm, List.take_append_drop]

theorem chunks16Aux_blocks :
    ∀ fuel l, l.length ≤ fuel → l.length % 16 = 0 →
      ∀ b ∈ chunks16Aux fuel l, b.length = 16 := by
  intro fuel
  induction fuel with
  | zero =>
    intro l h _ b hb
    match l, h with
    | [], _ => simp [chunks16Aux] at hb
  | succ fuel ih =>
    intro l h hm b hb
    match l with
    | [] => simp [chunks16Aux] at hb
    | a :: rest =>
      have hr : 15 ≤ rest.length := by
        rw [List.length_cons] at hm
        omega
      rw [chunks16Aux] at hb
      rcases List.mem_cons.mp hb with hbe | hbm
      · subst hbe
        rw [List.length_cons, List.length_take]
        omega
      · have hd : (rest.drop 15).length ≤ fuel := by
          rw [List.length_drop]
          rw [List.length_cons] at h
          omega
        have hdm : (rest.drop 15).length % 16 = 0 := by
          rw [List.length_drop]
          rw [List.length_cons] at hm
          omega
        exact ih (rest.drop 15) hd hdm b hbm

/-- Re-chunking the concatenation of 16-byte blocks returns the blocks. -/
theorem chunks16Aux_join_blocks :
    ∀ fuel (bls : List (List Nat)), bls.length ≤ fuel →
      (∀ b ∈ bls, b.length = 16) → chunks16Aux fuel bls.flatten = bls := by
  intro fuel
  induction fuel with
  | zero =>
    intro bls h _
    match bls, h with
    | [], _ => rfl
  | succ fuel ih =>
    intro bls h hb
    match bls with
    | [] => rfl
    | b :: rest =>
      have hb16 : b.length = 16 := hb b (by simp)
      match b, hb16 with
      | a :: t, hb16 =>
        have ht : t.length = 15 := by
          rw [List.length_cons] at hb16
          omega
        rw [List.flatten_cons, List.cons_append, chunks16Aux]
        rw [← ht, List.take_left, List.drop_left]
        rw [ih rest (by simpa using h) (fun x hx => hb x (by simp [hx]))]

theorem xorBytes_xorBytes :
    ∀ (a b : List Nat), a.length = b.length → xorBytes (xorBytes a b) b = a := by
  intro a
  induction a with
  | nil => intro b _; rfl
  | cons x a ih =>
    intro b hb
    match b with
    | y :: b =>
      have hlen : a.length = b.length := by
        rw [List.length_cons, List.length_cons] at hb
        omega
      simp only [xorBytes, List.zipWith_cons_cons]
      rw [show Nat.xor (Nat.xor x y) y = x from Nat.xor_cancel_right y x]
      have hih := ih b hlen
      rw [xorBytes, xorBytes] at hih
      rw [hih]

theorem xorBytes_length (a b : List Nat) :
    (xorBytes a b).length = min a.length b.length := by
  rw [xorBytes, List.length_zipWith]

theorem xorBytes_lt :
    ∀ (a b : List Nat), (∀ x ∈ a, x < 256) → (∀ x ∈ b, x < 256) →
      ∀ x ∈ xorBytes a b, x < 256 := by
  intro a
  induction a with
  | nil => intro b _ _ x hx; simp [xorBytes] at hx
  | cons u a ih =>
    intro b ha hb x hx
    match b with
    | [] => simp [xorBytes] at hx
    | v :: b =>
      simp only [xorBytes, List.zipWith_cons_cons, List.mem_cons] at hx
      rcases hx with rfl | hx
      · have h1 : u < 2 ^ 8 := ha u (by simp)
        have h2 : v < 2 ^ 8 := hb v (by simp)
        exact Nat.xor_lt_two_pow h1 h2
      · exact ih b (fun y hy => ha y (by simp [hy])) (fun y hy => hb y (by simp [hy])) x
          (by simpa [xorBytes] using hx)

/-- CBC decryption inverts CBC encryption, block by block. -/
theorem cbc_roundtrip (enc dec : List Nat → List Nat)
    (hinv : ∀ b : List Nat, b.length = 16 → dec (enc b) = b)
    (hlen : ∀ b : List Nat, b.length = 16 → (enc b).length = 16) :
    ∀ (blocks : List (List Nat)) (prev : List Nat),
      (∀ b ∈ blocks, b.length = 16) → prev.length = 16 →
      cbcDecryptBlocks dec prev (cbcEncryptBlocks enc prev blocks) = blocks := by
  intro blocks
  induction blocks with
  | nil => intro prev _ _; rfl
  | cons b rest ih =>
    intro prev hb hp
    have hb16 : b.length = 16 := hb b (by simp)
    have hxlen : (xorBytes b prev).length = 16 := by
      rw [xorBytes_length, hb16, hp]
      omega
    rw [cbcEncryptBlocks, cbcDecryptBlocks, hinv _ hxlen,
      xorBytes_xorBytes b prev (by omega),
      ih (enc (xorBytes b prev)) (fun x hx => hb x (by simp [hx])) (hlen _ hxlen)]

theorem cbcEncryptBlocks_lt (enc : List Nat → List Nat)
    (hlen : ∀ b : List Nat, b.length = 16 → (enc b).length = 16)
    (hbyte : ∀ b : List Nat, b.length = 16 → (∀ x ∈ b, x < 256) → ∀ x ∈ enc b, x < 256) :
    ∀ (blocks : List (List Nat)) (prev : List Nat),
      (∀ b ∈ blocks, b.length = 16) → (∀ b ∈ blocks, ∀ x ∈ b, x < 256) →
      prev.length = 16 → (∀ x ∈ prev, x < 256) →
      (∀ b ∈ cbcEncryptBlocks enc prev blocks, b.length = 16 ∧ ∀ x ∈ b, x < 256) := by
  intro blocks
  induction blocks with
  | nil => intro prev _ _ _ _ b hb; simp [cbcEncryptBlocks] at hb
  | cons b rest ih =>
    intro prev hb1 hb2 hp1 hp2 cb hcb
    have hb16 : b.length = 16 := hb1 b (by simp)
    have hxlen : (xorBytes b prev).length = 16 := by
      rw [xorBytes_length, hb16, hp1]
      omega
    have hxlt : ∀ x ∈ xorBytes b prev, x < 256 := xorBytes_lt b prev (hb2 b (by simp)) hp2
    rw [cbcEncryptBlocks] at hcb
    rcases List.mem_cons.mp hcb with he | hm
    · subst he
      exact ⟨hlen _ hxlen, hbyte _ hxlen hxlt⟩
    · exact ih (enc (xorBytes b prev)) (fun x hx => hb1 x (by simp [hx]))
        (fun x hx => hb2 x (by simp [hx])) (hlen _ hxlen) (hbyte _ hxlen hxlt) cb hm

theorem cbcEncryptBlocks_length (enc : List Nat → List Nat) :
    ∀ (blocks : List (List Nat)) (prev : List Nat),
      (cbcEncryptBlocks enc prev blocks).length = blocks.length := by
  intro blocks
  induction blocks with
  | nil => intro prev; rfl
  | cons b rest ih =>
    intro prev
    rw [cbcEncryptBlocks, List.length_cons, List.length_cons, ih]

theorem join_length_16 :
    ∀ bls : List (List Nat), (∀ b ∈ bls, b.length = 16) →
      bls.flatten.length = 16 * bls.length := by
  intro bls
  induction bls with
  | nil => intro _; rfl
  | cons b rest ih =>
    intro hb
    rw [List.flatten_cons, List.length_append, ih (fun x hx => hb x (by simp [hx])),
      hb b (by simp), List.length_cons]
    ring

theorem b64decodeStr_b64encodeStr (bs : List Nat) (h : ∀ x ∈ bs, x < 256) :
    b64decodeStr (b64encodeStr bs) = bs :=
  b64_roundtrip bs h

/-- C4 (amended): for every plaintext string, 32-character key and 16-byte
IV, under any keyed block primitive with the AES block properties (16-byte
blocks in and out, bytes stay bytes, decryption inverts encryption),
decrypting the encryption returns the BASE64 ENCODING of the plaintext's
UTF-8 bytes — `aes_decrypt` re-encodes the decrypted bytes in base64
(`base64.b64encode(decrypted)`) rather than returning the original
plaintext, so the round trip is `b64encode ∘ utf8`, not the identity. -/
theorem C4_aes_round_trip (enc dec : String → List Nat → List Nat)
    (data key : String) (iv : List Nat)
    (hkey : key.length = 32) (hiv : iv.length = 16) (hivb : ∀ x ∈ iv, x < 256)
    (hinv : ∀ b : List Nat, b.length = 16 → dec key (enc key b) = b)
    (hlen : ∀ b : List Nat, b.length = 16 → (enc key b).length = 16)
    (hbyte : ∀ b : List Nat, b.length = 16 → (∀ x ∈ b, x < 256) →
      ∀ x ∈ enc key b, x < 256) :
    aes_decrypt dec (aes_encrypt enc data key iv) key iv =
      .ok (b64encodeStr (utf8Encode data)) := by
  have hpmod : (pkcs7pad (utf8Encode data)).length % 16 = 0 := pkcs7pad_length_mod _
  have hplt : ∀ x ∈ pkcs7pad (utf8Encode data), x < 256 := pkcs7pad_lt (utf8Encode_lt data)
  have hblen : ∀ b ∈ chunks16 (pkcs7pad (utf8Encode data)), b.length = 16 :=
    chunks16Aux_blocks _ _ (le_refl _) hpmod
  have hbflat : (chunks16 (pkcs7pad (utf8Encode data))).flatten = pkcs7pad (utf8Encode data) :=
    chunks16Aux_join _ _ (le_refl _) hpmod
  have hblt : ∀ b ∈ chunks16 (pkcs7pad (utf8Encode data)), ∀ x ∈ b, x < 256 := by
    intro b hb x hx
    exact hplt x (by rw [← hbflat]; exact List.mem_flatten.mpr ⟨b, hb, hx⟩)
  have hcprop := cbcEncryptBlocks_lt (enc key) hlen hbyte _ iv hblen hblt hiv hivb
  have hclen : ∀ b ∈ cbcEncryptBlocks (enc key) iv (chunks16 (pkcs7pad (utf8Encode data))),
      b.length = 16 := fun b hb => (hcprop b hb).1
  have hclt :
      ∀ x ∈ (cbcEncryptBlocks (enc key) iv
          (chunks16 (pkcs7pad (utf8Encode data)))).flatten, x < 256 := by
    intro x hx
    rcases List.mem_flatten.mp hx with ⟨b, hb, hxb⟩
    exact (hcprop b hb).2 x hxb
  have hrechunk : chunks16 (cbcEncryptBlocks (enc key) iv
        (chunks16 (pkcs7pad (utf8Encode data)))).flatten =
      cbcEncryptBlocks (enc key) iv (chunks16 (pkcs7pad (utf8Encode data))) := by
    rw [chunks16]
    apply chunks16Aux_join_blocks
    · rw [join_length_16 _ hclen]
      omega
    · exact hclen
  have hdec := cbc_roundtrip (enc key) (dec key) hinv hlen
    (chunks16 (pkcs7pad (utf8Encode data))) iv hblen hiv
  rw [aes_decrypt, aes_encrypt, b64decodeStr_b64encodeStr _ hclt, hrechunk, hdec, hbflat,
    pkcs7unpad_pkcs7pad]

/-- C4 counterexample: decrypting the encryption of `"hi"` yields
`"aGk="` — the base64 of the plaintext's bytes — not `"hi"` itself, so
`aes_decrypt(aes_encrypt(payload, key, iv), key, iv) == payload` fails
(independently of the block primitive; the repository's own test decodes
the result a second time before comparing). -/
theorem C4_counterexample :
    aes_decrypt idBlockCipher (aes_encrypt idBlockCipher "hi" sampleAesKey sampleIv)
        sampleAesKey sampleIv = .ok "aGk=" ∧ "aGk=" ≠ "hi" := by
  constructor
  · rfl
  · decide

/-- C4 witness: the amended round trip at the identity block primitive on
a concrete payload, key and IV. -/
theorem C4_aes_round_trip_witness :
    aes_decrypt idBlockCipher (aes_encrypt idBlockCipher "hi" sampleAesKey sampleIv)
        sampleAesKey sampleIv = .ok (b64encodeStr (utf8Encode "hi")) :=
  C4_aes_round_trip idBlockCipher idBlockCipher "hi" sampleAesKey sampleIv rfl rfl
    (by decide) (fun _ _ => rfl) (fun _ h => h) (fun _ _ hb => hb)

theorem beBytes_length : ∀ k n, (beBytes k n).length = k := by
  intro k
  induction k with
  | zero => intro n; rfl
  | succ k ih => intro n; rw [beBytes, List.length_cons, ih]

theorem sha256_length (msg : List Nat) : (sha256 msg).length = 32 := by
  rw [sha256]
  simp only [List.length_append, beBytes_length]

theorem hmacSHA256_length (key msg : List Nat) : (hmacSHA256 key msg).length = 32 :=
  sha256_length _

theorem get_signature_length (data key : String) : (get_signature data key).length = 44 := by
  show (b64encodeBytes (hmacSHA256 (b64decodeStr key) (utf8Encode data))).length = 44
  rw [b64encodeBytes_length, hmacSHA256_length]

/-- C5: when the request's `req` field is not in the no-sign allow-list
and a truthy sign key is provided, the wire text is the 44-character
base64 HMAC-SHA256 signature of the compact JSON serialisation
concatenated directly with that JSON, and recomputing the signature of the
remaining characters under the key reproduces the prefix (verification
succeeds); with no key, or with an allow-listed `req`, the wire text is
the bare compact JSON. -/
theorem C5_sign_request_framing (data : List (String × Json)) (key : String)
    (hkey : key ≠ "")
    (hreq : jsonInStrList ((dictGet data "req").getD (Json.str "")) NO_SIGN_REQUESTS
      = false) :
    sign_request data (some key) =
      get_signature (String.mk (dumpJson (Json.obj data))) key ++
        String.mk (dumpJson (Json.obj data)) ∧
    (get_signature (String.mk (dumpJson (Json.obj data))) key).length = 44 ∧
    (sign_request data (some key)).data.drop 44 = dumpJson (Json.obj data) ∧
    get_signature (String.mk ((sign_request data (some key)).data.drop 44)) key =
      String.mk ((sign_request data (some key)).data.take 44) ∧
    sign_request data none = String.mk (dumpJson (Json.obj data)) ∧
    (∀ (data2 : List (String × Json)) (k2 : Option String),
      jsonInStrList ((dictGet data2 "req").getD (Json.str "")) NO_SIGN_REQUESTS = true →
      sign_request data2 k2 = String.mk (dumpJson (Json.obj data2))) := by
  have hcond : (!jsonInStrList ((dictGet data "req").getD (Json.str "")) NO_SIGN_REQUESTS
      && pyTruthyOptStr (some key)) = true := by
    rw [hreq]
    simp [pyTruthyOptStr, hkey]
  have hmain : sign_request data (some key) =
      get_signature (String.mk (dumpJson (Json.obj data))) key ++
        String.mk (dumpJson (Json.obj data)) := by
    rw [sign_request, if_pos hcond]
    rfl
  have hd44 : (get_signature (String.mk (dumpJson (Json.obj data))) key).data.length = 44 :=
    get_signature_length _ _
  have hdrop : (sign_request data (some key)).data.drop 44 = dumpJson (Json.obj data) := by
    rw [hmain, String.data_append, List.drop_left' hd44]
  refine ⟨hmain, get_signature_length _ _, hdrop, ?_, ?_, ?_⟩
  · rw [hdrop, hmain, String.data_append, List.take_left' hd44]
  · rw [sign_request]
    simp [pyTruthyOptStr]
  · intro data2 k2 h2
    rw [sign_request, if_neg (by rw [h2]; simp)]

/-- C5 witness: the framing theorem on a concrete request and key. -/
theorem C5_sign_request_framing_witness :
    sign_request sampleSignedRequest (some sampleSignKey) =
      get_signature (String.mk (dumpJson (Json.obj sampleSignedRequest))) sampleSignKey ++
        String.mk (dumpJson (Json.obj sampleSignedRequest)) ∧
    (get_signature (String.mk (dumpJson (Json.obj sampleSignedRequest)))
        sampleSignKey).length = 44 := by
  have h := C5_sign_request_framing sampleSignedRequest sampleSignKey (by decide) (by decide)
  exact ⟨h.1, h.2.1⟩

/-- C3 witness: the characterisation instantiated at a concrete parse
function, clock and configuration — at `now = 0`, `threshold = 1` the
stored expiry `0` is within the refresh window. -/
theorem C3_expiry_characterization_witness :
    token_needs_refresh parse0 0 1 (some cfgEntryAtZero) = true ∧
    _check_expires_at parse0 1 (some "2024-01-01T00:00:00") = true := by
  have h := C3_expiry_characterization parse0 0 1 (some "2024-01-01T00:00:00") cfgEntryAtZero
  have h2 := C3_expiry_characterization parse0 1 1 (some "2024-01-01T00:00:00") cfgEntryAtZero
  exact ⟨(h.2.2.2.2.2.1).mpr ⟨0, rfl, by norm_num⟩,
    h2.1.mpr (by intro t ht; cases ht; norm_num)⟩

end FnosGitAuth
